import Mathlib

/-!
Verification development for the github-summariser backend (src/main.py).

Strings are modelled as `List Char` (Python `str` is a sequence of code
points).  Each definition is a shallow embedding of the corresponding
Python function; network responses are inputs to the embedded functions,
since the code's behaviour is a pure function of the responses it
receives.  Python exceptions are modelled with `Option` / `Except`.
-/

/-- ASCII lowercasing of a string, modelling Python `str.lower` on the
ASCII fragment (all extension constants in the program are ASCII). -/
def lowerList (l : List Char) : List Char := l.map Char.toLower

/-- Characters treated as whitespace by Python `str.strip()` (ASCII
fragment of Python's whitespace set). -/
def pyIsSpace (c : Char) : Bool :=
  c = ' ' || c = '\t' || c = '\n' || c = '\r' || c = '\x0b' || c = '\x0c'

/-- Model of Python `str.strip()` with no arguments: drop leading and
trailing whitespace. -/
def pyStrip (l : List Char) : List Char :=
  ((l.dropWhile pyIsSpace).reverse.dropWhile pyIsSpace).reverse

/-- Replacement loop, structurally recursive on fuel; each step
consumes at least one input character, so fuel equal to the input
length suffices. -/
def listReplaceFuel (pat repl : List Char) : Nat → List Char → List Char
  | 0, s => s
  | fuel + 1, s =>
    match s with
    | [] => []
    | c :: rest =>
      if pat ≠ [] ∧ pat.isPrefixOf (c :: rest) then
        repl ++ listReplaceFuel pat repl fuel (rest.drop (pat.length - 1))
      else
        c :: listReplaceFuel pat repl fuel rest

/-- Model of Python `str.replace(pat, repl)`: replace non-overlapping
occurrences left to right.  The program only replaces non-empty literal
patterns, so the empty-pattern case (which Python treats specially) is
mapped to the identity. -/
def listReplace (s pat repl : List Char) : List Char :=
  listReplaceFuel pat repl s.length s

/-- Model of Python `str.rstrip(c)` for a single character: drop every
trailing occurrence of `c`. -/
def rstripChar (l : List Char) (c : Char) : List Char :=
  (l.reverse.dropWhile (fun x => x = c)).reverse

/-!
## Filename filter (src/main.py, should_include_file, lines 44-51)
-/

/-- Whether a character is the dot. -/
def isDot (c : Char) : Bool := c = '.'

/-- Whether a character differs from the dot. -/
def notDot (c : Char) : Bool := c ≠ '.'

/-- Whether a character differs from the path separator. -/
def notSep (c : Char) : Bool := c ≠ '/'

/-- Part of the path after the last `/`, as used by
`posixpath.splitext`: the extension is computed inside the final path
component only.  Filenames returned by the provider's root listing never
contain `/`, in which case this is the identity. -/
def basenamePart (n : List Char) : List Char :=
  (n.reverse.takeWhile notSep).reverse

/-- Extension of a path component, modelling `posixpath.splitext` (with
no separators present): the suffix starting at the last `.`, except that
a component whose only dots are leading dots (such as `.bashrc` or
`..png`) has no extension. -/
def extPart (base : List Char) : List Char :=
  let revTail := base.reverse.takeWhile notDot
  if revTail.length = base.length then []
  else if (base.take (base.length - revTail.length - 1)).all isDot then []
  else '.' :: revTail.reverse

/-- Model of `os.path.splitext(filename)[1]` (POSIX): the extension of
the final path component. -/
def splitextExt (n : List Char) : List Char := extPart (basenamePart n)

/-- The fixed excluded-extension set of `should_include_file`
(`.png`, `.jpg`, `.gif`, `.zip`, `.exe`, `.pyc`, `.lock`). -/
def ignoredExtensions : List (List Char) :=
  [['.', 'p', 'n', 'g'], ['.', 'j', 'p', 'g'], ['.', 'g', 'i', 'f'],
   ['.', 'z', 'i', 'p'], ['.', 'e', 'x', 'e'], ['.', 'p', 'y', 'c'],
   ['.', 'l', 'o', 'c', 'k']]

/-- Embedding of `should_include_file` (src/main.py lines 44-51): names
starting with `.` are rejected, otherwise the lowercased
`os.path.splitext` extension must not lie in the excluded set. -/
def should_include_file (name : List Char) : Bool :=
  if name.head? = some '.' then false
  else ! decide (lowerList (splitextExt name) ∈ ignoredExtensions)

/-!
## URL parsing (src/main.py, get_repo_data, lines 59-64)
-/

/-- Model of Python `list.split(sep)` for a one-character separator:
`List.splitOn` has the same semantics (the empty list splits to a single
empty segment, adjacent separators yield empty segments). -/
def parseParts (url : List Char) : List (List Char) :=
  (rstripChar url '/').splitOn '/'

/-- Owner and repository name extracted by `get_repo_data`
(`parts[-2]`, `parts[-1]`), or `none` when the code raises the
400 `HTTPException`. -/
def ownerRepo (url : List Char) : Option (List Char × List Char) :=
  let parts := parseParts url
  if parts.length < 2 then none
  else some (parts.getD (parts.length - 2) [], parts.getD (parts.length - 1) [])

/-!
## Base64 and UTF-8 decoding

`get_repo_data` runs `base64.b64decode(data["content"]).decode("utf-8")`
on the readme body.  Both library calls are modelled concretely:
`b64decode` discards characters outside the base64 alphabet (the
provider inserts newlines), then requires well-placed `=` padding;
`utf8Decode` is the strict UTF-8 decoder (rejecting truncated
sequences, overlong forms, surrogates and code points above 0x10FFFF).
Bytes are `Nat` values below 256.
-/

/-- Value of a character in the standard base64 alphabet. -/
def b64Val (c : Char) : Option Nat :=
  if 'A' ≤ c ∧ c ≤ 'Z' then some (c.toNat - 65)
  else if 'a' ≤ c ∧ c ≤ 'z' then some (c.toNat - 97 + 26)
  else if '0' ≤ c ∧ c ≤ '9' then some (c.toNat - 48 + 52)
  else if c = '+' then some 62
  else if c = '/' then some 63
  else none

/-- Decode base64 characters (padding already removed) in groups of
four; a final group of two or three characters yields one or two bytes,
a final group of one character is impossible after the padding check. -/
def decodeGroups : List Char → Option (List Nat)
  | [] => some []
  | [_] => none
  | [a, b] => do
    let va ← b64Val a
    let vb ← b64Val b
    some [va * 4 + vb / 16]
  | [a, b, c] => do
    let va ← b64Val a
    let vb ← b64Val b
    let vc ← b64Val c
    some [va * 4 + vb / 16, (vb % 16) * 16 + vc / 4]
  | a :: b :: c :: d :: rest => do
    let va ← b64Val a
    let vb ← b64Val b
    let vc ← b64Val c
    let vd ← b64Val d
    let tail ← decodeGroups rest
    some ([va * 4 + vb / 16, (vb % 16) * 16 + vc / 4, (vc % 4) * 64 + vd] ++ tail)

/-- Model of Python `base64.b64decode` on a text argument: characters
outside the alphabet and padding are discarded, total length including
padding must be a multiple of four with at most two trailing `=`. -/
def b64decode (s : List Char) : Option (List Nat) :=
  let cleaned := s.filter (fun c => (b64Val c).isSome || c = '=')
  let body := cleaned.takeWhile (fun c => c ≠ '=')
  let padding := cleaned.drop body.length
  if padding.all (fun c => c = '=') ∧ padding.length ≤ 2 ∧
      (body.length + padding.length) % 4 = 0 then
    decodeGroups body
  else none

/-- Continuation byte of a UTF-8 sequence. -/
def utf8Cont (b : Nat) : Bool := 128 ≤ b && b ≤ 191

/-- Strict UTF-8 decoder, modelling Python `bytes.decode("utf-8")`:
`none` on any malformed sequence (where Python raises
`UnicodeDecodeError`). -/
def utf8Decode : List Nat → Option (List Char)
  | [] => some []
  | b :: rest =>
    if b < 128 then
      (fun cs => Char.ofNat b :: cs) <$> utf8Decode rest
    else if 194 ≤ b ∧ b ≤ 223 then
      match rest with
      | c1 :: rest2 =>
        if utf8Cont c1 then
          (fun cs => Char.ofNat ((b - 192) * 64 + (c1 - 128)) :: cs) <$> utf8Decode rest2
        else none
      | [] => none
    else if 224 ≤ b ∧ b ≤ 239 then
      match rest with
      | c1 :: c2 :: rest2 =>
        let lo1 := if b = 224 then 160 else 128
        let hi1 := if b = 237 then 159 else 191
        if lo1 ≤ c1 ∧ c1 ≤ hi1 ∧ utf8Cont c2 then
          (fun cs =>
            Char.ofNat ((b - 224) * 4096 + (c1 - 128) * 64 + (c2 - 128)) :: cs) <$>
            utf8Decode rest2
        else none
      | _ => none
    else if 240 ≤ b ∧ b ≤ 244 then
      match rest with
      | c1 :: c2 :: c3 :: rest2 =>
        let lo1 := if b = 240 then 144 else 128
        let hi1 := if b = 244 then 143 else 191
        if lo1 ≤ c1 ∧ c1 ≤ hi1 ∧ utf8Cont c2 ∧ utf8Cont c3 then
          (fun cs =>
            Char.ofNat
              ((b - 240) * 262144 + (c1 - 128) * 4096 + (c2 - 128) * 64 + (c3 - 128)) :: cs) <$>
            utf8Decode rest2
        else none
      | _ => none
    else none

/-- Composite decoding of the readme body's `content` field:
`base64.b64decode(content).decode("utf-8")`. -/
def decodeContent (content : List Char) : Option (List Char) :=
  (b64decode content).bind utf8Decode

/-!
## HTTP-level model of get_repo_data (src/main.py lines 54-96)

The two provider responses are inputs.  The listing body is modelled by
the `name` fields of its JSON array; the readme body by its base64
`content` field.
-/

/-- Response of the provider's contents endpoint: HTTP status and the
`name` field of each entry of the JSON array body. -/
structure TreeResp where
  status : Nat
  names : List (List Char)
deriving DecidableEq

/-- Response of the provider's readme endpoint: HTTP status and the
base64 `content` field of the JSON body. -/
structure ReadmeResp where
  status : Nat
  content : List Char
deriving DecidableEq

/-- Errors out of `get_repo_data`: a raised `HTTPException` with status
code and detail, or any other uncaught exception (base64 / UTF-8 decode
failures). -/
inductive FetchError where
  | http (status : Nat) (detail : List Char)
  | exn
deriving DecidableEq

deriving instance DecidableEq for Except

/-- File list computed from the contents response (src/main.py lines
77-81): the filtered names on HTTP 200, the empty list on any other
status. -/
def fileListOf (tree : TreeResp) : List (List Char) :=
  if tree.status = 200 then tree.names.filter should_include_file else []

/-- Readme text computed from the readme response (src/main.py lines
87-94): decoded content on 200, the fixed string on 404, a raised
`HTTPException` with the provider's status otherwise. -/
def readmeResult (r : ReadmeResp) : Except FetchError (List Char) :=
  if r.status = 200 then
    match decodeContent r.content with
    | some s => Except.ok s
    | none => Except.error FetchError.exn
  else if r.status = 404 then
    Except.ok (String.toList "No README found.")
  else
    Except.error (FetchError.http r.status (String.toList "GitHub API Error"))

/-- Embedding of `get_repo_data` (src/main.py lines 54-96) as a function
of the request URL and the two provider responses. -/
def get_repo_data (url : List Char) (tree : TreeResp) (readme : ReadmeResp) :
    Except FetchError (List Char × List (List Char)) :=
  if (parseParts url).length < 2 then
    Except.error (FetchError.http 400 (String.toList "Invalid GitHub URL"))
  else
    (readmeResult readme).map (fun s => (s, fileListOf tree))

/-- Headers dict built by `get_repo_data` (src/main.py lines 66-69): the
value is `none` exactly where Python stores `None`. -/
def headersList (token : Option (List Char)) :
    List (List Char × Option (List Char)) :=
  [(String.toList "Accept", some (String.toList "application/vnd.github.v3+json")),
   (String.toList "Authorization",
     match token with
     | some t => some (String.toList "Bearer " ++ t)
     | none => none)]

/-!
## JSON values and json.loads (used by analyze_repo)

`analyze_repo` returns `json.loads(content)` directly, so its result
type is an arbitrary JSON value.  The parser models Python `json.loads`
on the fragment without `\uXXXX` string escapes; float literals
(fraction or exponent present) and the `NaN` / `Infinity` constants are
accepted and kept syntactically, since the program never computes with
them.  Duplicate object keys are kept in parse order (Python keeps the
last; no claim involves them).
-/

/-- JSON values as returned by `json.loads`. -/
inductive JsonVal where
  | null
  | bool (b : Bool)
  | num (n : Int)
  | jfloat (intPart : Int) (fracDigits : List Nat) (expPart : Int)
  | jnan
  | jinf (neg : Bool)
  | str (s : List Char)
  | arr (xs : List JsonVal)
  | obj (kvs : List (List Char × JsonVal))

/-- JSON whitespace characters. -/
def jsonWs (c : Char) : Bool := c = ' ' || c = '\t' || c = '\n' || c = '\r'

/-- Skip JSON whitespace. -/
def skipWs (l : List Char) : List Char := l.dropWhile jsonWs

/-- Single-character string escapes accepted by the JSON grammar
(`\uXXXX` is outside the modelled fragment). -/
def escChar (c : Char) : Option Char :=
  if c = '"' then some '"'
  else if c = '\\' then some '\\'
  else if c = '/' then some '/'
  else if c = 'b' then some '\x08'
  else if c = 'f' then some '\x0c'
  else if c = 'n' then some '\n'
  else if c = 'r' then some '\r'
  else if c = 't' then some '\t'
  else none

/-- Parse the remainder of a JSON string literal (after the opening
quote), returning the decoded characters and the rest of the input.
Unescaped control characters are rejected, as in strict `json.loads`. -/
def parseStrChars : List Char → Option (List Char × List Char)
  | [] => none
  | '"' :: rest => some ([], rest)
  | '\\' :: e :: rest => do
    let c ← escChar e
    let (s, r) ← parseStrChars rest
    some (c :: s, r)
  | c :: rest =>
    if c.toNat < 32 then none
    else do
      let (s, r) ← parseStrChars rest
      some (c :: s, r)

/-- Decimal digit value. -/
def digitVal (c : Char) : Option Nat :=
  if '0' ≤ c ∧ c ≤ '9' then some (c.toNat - 48) else none

/-- Consume a non-empty run of decimal digits. -/
def parseDigits (l : List Char) : Option (List Nat × List Char) :=
  let run := l.takeWhile (fun c => ('0' ≤ c ∧ c ≤ '9' : Bool) = true)
  if run.isEmpty then none
  else some (run.map (fun c => c.toNat - 48), l.drop run.length)

/-- Digits to a natural number. -/
def digitsToNat (ds : List Nat) : Nat := ds.foldl (fun acc d => acc * 10 + d) 0

/-- Parse the integer part of a JSON number after an optional sign:
`0` or a nonzero digit followed by digits (no leading zeros). -/
def parseIntDigits (l : List Char) : Option (Nat × List Char) :=
  match l with
  | '0' :: rest => some (0, rest)
  | c :: _ =>
    if ('1' ≤ c ∧ c ≤ '9' : Bool) then
      match parseDigits l with
      | some (ds, rest) => some (digitsToNat ds, rest)
      | none => none
    else none
  | [] => none

/-- Exponent part of a JSON number: optional sign then digits; on a
malformed exponent the number ends before the `e`, matching the
scanner's regex. -/
def parseNumExp (ip : Int) (ds : List Nat) (rest : List Char)
    (fallbackRest : List Char) : JsonVal × List Char :=
  let (sign, rest2) : Int × List Char :=
    match rest with
    | '+' :: r => (1, r)
    | '-' :: r => (-1, r)
    | _ => (1, rest)
  match parseDigits rest2 with
  | some (eds, r) => (JsonVal.jfloat ip ds (sign * Int.ofNat (digitsToNat eds)), r)
  | none =>
    match ds with
    | [] => (JsonVal.num ip, fallbackRest)
    | _ => (JsonVal.jfloat ip ds 0, fallbackRest)

/-- Parse the optional fraction and exponent of a JSON number, given
the signed integer part; a present fraction or exponent produces a
syntactic float value. -/
def parseNumTail (intPart : Int) (l : List Char) : JsonVal × List Char :=
  let (frac, l1) :=
    match l with
    | '.' :: rest =>
      match parseDigits rest with
      | some (ds, r) => (some ds, r)
      | none => (none, l)
    | _ => (none, l)
  match frac, l1 with
  | none, _ =>
    match l1 with
    | 'e' :: rest => parseNumExp intPart [] rest l1
    | 'E' :: rest => parseNumExp intPart [] rest l1
    | _ => (JsonVal.num intPart, l1)
  | some ds, _ =>
    match l1 with
    | 'e' :: rest => parseNumExp intPart ds rest l1
    | 'E' :: rest => parseNumExp intPart ds rest l1
    | _ => (JsonVal.jfloat intPart ds 0, l1)

mutual

/-- Parse one JSON value (fuel-indexed recursion; `jsonLoads` supplies
enough fuel for any input). -/
def parseVal : Nat → List Char → Option (JsonVal × List Char)
  | 0, _ => none
  | fuel + 1, input =>
    let l := skipWs input
    if (String.toList "null").isPrefixOf l then some (JsonVal.null, l.drop 4)
    else if (String.toList "true").isPrefixOf l then some (JsonVal.bool true, l.drop 4)
    else if (String.toList "false").isPrefixOf l then some (JsonVal.bool false, l.drop 5)
    else if (String.toList "NaN").isPrefixOf l then some (JsonVal.jnan, l.drop 3)
    else if (String.toList "Infinity").isPrefixOf l then some (JsonVal.jinf false, l.drop 8)
    else if (String.toList "-Infinity").isPrefixOf l then some (JsonVal.jinf true, l.drop 9)
    else
      match l with
      | '"' :: rest =>
        match parseStrChars rest with
        | some (s, r) => some (JsonVal.str s, r)
        | none => none
      | '[' :: rest =>
        let rest2 := skipWs rest
        match rest2 with
        | ']' :: r => some (JsonVal.arr [], r)
        | _ =>
          match parseArrItems fuel rest with
          | some (xs, r) => some (JsonVal.arr xs, r)
          | none => none
      | '{' :: rest =>
        let rest2 := skipWs rest
        match rest2 with
        | '}' :: r => some (JsonVal.obj [], r)
        | _ =>
          match parseObjItems fuel rest with
          | some (kvs, r) => some (JsonVal.obj kvs, r)
          | none => none
      | '-' :: rest =>
        match parseIntDigits rest with
        | some (n, r) => some (parseNumTail (-(Int.ofNat n)) r)
        | none => none
      | _ =>
        match parseIntDigits l with
        | some (n, r) => some (parseNumTail (Int.ofNat n) r)
        | none => none

/-- Parse the non-empty element list of a JSON array (after `[`),
including the closing bracket. -/
def parseArrItems : Nat → List Char → Option (List JsonVal × List Char)
  | 0, _ => none
  | fuel + 1, l => do
    let (v, r) ← parseVal fuel l
    match skipWs r with
    | ',' :: r2 =>
      match parseArrItems fuel r2 with
      | some (xs, r3) => some (v :: xs, r3)
      | none => none
    | ']' :: r2 => some ([v], r2)
    | _ => none

/-- Parse the non-empty member list of a JSON object (after the opening
brace), including the closing brace. -/
def parseObjItems : Nat → List Char → Option (List (List Char × JsonVal) × List Char)
  | 0, _ => none
  | fuel + 1, l =>
    match skipWs l with
    | '"' :: rest => do
      let (k, r) ← parseStrChars rest
      match skipWs r with
      | ':' :: r2 => do
        let (v, r3) ← parseVal fuel r2
        match skipWs r3 with
        | ',' :: r4 =>
          match parseObjItems fuel r4 with
          | some (kvs, r5) => some ((k, v) :: kvs, r5)
          | none => none
        | '}' :: r4 => some ([(k, v)], r4)
        | _ => none
      | _ => none
    | _ => none

end

/-- Model of Python `json.loads`: parse one value, then require only
whitespace to remain (otherwise `Extra data`). -/
def jsonLoads (s : List Char) : Option JsonVal :=
  match parseVal (s.length + 1) s with
  | some (v, rest) => if skipWs rest = [] then some v else none
  | none => none

/-!
## Summary generator (src/main.py, analyze_repo, lines 99-148)

The remote completion call's outcome is an input: either the call (or
the subsequent indexing of `response.choices[0].message`) raised, or it
delivered `message.content`, which is `None` or a string.
-/

/-- Outcome of `client.chat.completions.create` as observed by
`analyze_repo`. -/
inductive CompletionOutcome where
  | exn
  | reply (content : Option (List Char))

/-- Truncation of the readme (src/main.py line 102):
`readme_text[:5000]`. -/
def truncated_readme (readme : List Char) : List Char := readme.take 5000

/-- Joined file list (src/main.py line 105): `", ".join(file_list)`. -/
def files_str (file_names : List (List Char)) : List Char :=
  List.intercalate (String.toList ", ") file_names

/-- Fixed part of the user prompt before the readme text. -/
def userPromptHeader (file_names : List (List Char)) : List Char :=
  String.toList " \n    Root Files (Filtered): " ++ files_str file_names ++
    String.toList "\n    README Content (Truncated): "

/-- User prompt f-string (src/main.py lines 120-122). -/
def user_prompt (readme : List Char) (file_names : List (List Char)) : List Char :=
  String.toList " \n    Root Files (Filtered): " ++ files_str file_names ++
    String.toList "\n    README Content (Truncated): " ++ truncated_readme readme

/-- Markdown-fence cleanup and strip applied to the model reply
(src/main.py line 137). -/
def cleanContent (content : List Char) : List Char :=
  pyStrip (listReplace (listReplace content (String.toList "```json") [])
    (String.toList "```") [])

/-- The fixed fallback object (src/main.py lines 144-148). -/
def fallbackJson : JsonVal :=
  JsonVal.obj
    [(String.toList "summary",
        JsonVal.str (String.toList "Analysis failed to produce valid JSON.")),
     (String.toList "technologies", JsonVal.arr []),
     (String.toList "structure", JsonVal.str (String.toList "Unknown"))]

/-- Embedding of `analyze_repo` (src/main.py lines 99-148).  The
function is total: every exception path of the `try` block (transport
failure, `None` content, `json.loads` failure) lands in the fallback
object, and a successfully parsed reply is returned as-is. -/
def analyze_repo (readme_text : List Char) (file_list : List (List Char))
    (outcome : CompletionOutcome) : JsonVal :=
  let _prompt := user_prompt readme_text file_list
  match outcome with
  | CompletionOutcome.exn => fallbackJson
  | CompletionOutcome.reply none => fallbackJson
  | CompletionOutcome.reply (some content) =>
    match jsonLoads (cleanContent content) with
    | some v => v
    | none => fallbackJson

/-- The exception cases of the generation stage: the completion call
raised, `message.content` was `None` (so `.replace` raised), or the
cleaned reply failed to parse (so `json.loads` raised). -/
def genRaises (outcome : CompletionOutcome) : Prop :=
  outcome = CompletionOutcome.exn ∨
  outcome = CompletionOutcome.reply none ∨
  ∃ content, outcome = CompletionOutcome.reply (some content) ∧
    jsonLoads (cleanContent content) = none

/-- Keys of a JSON object value, `none` for non-objects. -/
def resultKeys (j : JsonVal) : Option (List (List Char)) :=
  match j with
  | JsonVal.obj kvs => some (kvs.map (fun kv => kv.fst))
  | _ => none

/-- Whether a JSON value is an object with exactly the three
`AnalysisResult` fields in order. -/
def isAnalysisShape (j : JsonVal) : Bool :=
  resultKeys j =
    some [String.toList "summary", String.toList "technologies",
      String.toList "structure"]

/-!
## Spec-side characterization of the filename filter (for C1)

The spec describes exclusion by "lowercase extension in the set
png, jpg, gif, zip, exe, pyc, lock"; its notion of extension is the
part of the name after the last dot (empty when there is no dot).
-/

/-- Extension in the spec's sense: the characters after the last `.` of
the name, empty when the name contains no dot. -/
def specExtension (n : List Char) : List Char :=
  if ('.' : Char) ∈ n then (n.reverse.takeWhile notDot).reverse else []

/-- The spec's excluded extensions, without the leading dot. -/
def excludedExtNames : List (List Char) :=
  [['p', 'n', 'g'], ['j', 'p', 'g'], ['g', 'i', 'f'], ['z', 'i', 'p'],
   ['e', 'x', 'e'], ['p', 'y', 'c'], ['l', 'o', 'c', 'k']]

/-- Spec-side exclusion predicate: name starts with `.` or its
lowercase extension is in the excluded set. -/
def specExcludedName (n : List Char) : Bool :=
  n.head? = some '.' || decide (lowerList (specExtension n) ∈ excludedExtNames)

/-!
## Helper lemmas about takeWhile and the extension computation
-/

/-- The predicate `notDot` holds exactly away from the dot. -/
theorem notDot_true_iff (c : Char) : notDot c = true ↔ c ≠ '.' := by
  simp [notDot]

/-- A dot-free list is unchanged by `takeWhile notDot`. -/
theorem takeWhile_notDot_self (l : List Char) (h : ('.' : Char) ∉ l) :
    l.takeWhile notDot = l :=
  List.takeWhile_eq_self_iff.mpr fun x hx =>
    (notDot_true_iff x).mpr fun he => h (he ▸ hx)

/-- A list containing a dot loses at least one element under
`takeWhile notDot`. -/
theorem takeWhile_notDot_length_lt (l : List Char) (h : ('.' : Char) ∈ l) :
    (l.takeWhile notDot).length < l.length := by
  induction l with
  | nil => simp at h
  | cons c t ih =>
    rw [List.takeWhile_cons]
    by_cases hc : c = '.'
    · have hf : notDot c = false := by simp [notDot, hc]
      rw [hf]
      simp
    · have ht : notDot c = true := by simp [notDot, hc]
      rw [ht]
      have hd : ('.' : Char) ∈ t := by
        rcases List.mem_cons.mp h with h1 | h1
        · exact absurd h1.symm hc
        · exact h1
      simp only [if_true, List.length_cons]
      exact Nat.succ_lt_succ (ih hd)

/-- Appending one element after a dot does not change
`takeWhile notDot`. -/
theorem takeWhile_notDot_append (l : List Char) (a : Char) (h : ('.' : Char) ∈ l) :
    (l ++ [a]).takeWhile notDot = l.takeWhile notDot := by
  induction l with
  | nil => simp at h
  | cons c t ih =>
    rw [List.cons_append, List.takeWhile_cons, List.takeWhile_cons]
    by_cases hc : c = '.'
    · have hf : notDot c = false := by simp [notDot, hc]
      rw [hf]
      simp
    · have ht : notDot c = true := by simp [notDot, hc]
      rw [ht]
      have hd : ('.' : Char) ∈ t := by
        rcases List.mem_cons.mp h with h1 | h1
        · exact absurd h1.symm hc
        · exact h1
      simp only [if_true]
      rw [ih hd]

/-- A dot-free component has no extension. -/
theorem extPart_of_no_dot (base : List Char) (h : ('.' : Char) ∉ base) :
    extPart base = [] := by
  have hw : base.reverse.takeWhile notDot = base.reverse :=
    takeWhile_notDot_self base.reverse fun hm => h (List.mem_reverse.mp hm)
  simp [extPart, hw]

/-- A component whose head is not a dot but which contains a dot later
has the suffix from the last dot as its extension. -/
theorem extPart_of_dot (c : Char) (t : List Char) (hc : c ≠ '.')
    (hd : ('.' : Char) ∈ t) :
    extPart (c :: t) = '.' :: (t.reverse.takeWhile notDot).reverse := by
  have hrevmem : ('.' : Char) ∈ t.reverse := List.mem_reverse.mpr hd
  have htw : (c :: t).reverse.takeWhile notDot = t.reverse.takeWhile notDot := by
    rw [List.reverse_cons]
    exact takeWhile_notDot_append t.reverse c hrevmem
  have hlt : (t.reverse.takeWhile notDot).length < t.length := by
    simpa using takeWhile_notDot_length_lt t.reverse hrevmem
  simp only [extPart, htw]
  rw [if_neg (by simp only [List.length_cons]; omega)]
  rw [if_neg ?hall]
  case hall =>
    intro hall
    have h1 : 1 ≤ (c :: t).length - (t.reverse.takeWhile notDot).length - 1 := by
      simp only [List.length_cons]
      omega
    obtain ⟨k, hk⟩ : ∃ k, (c :: t).length - (t.reverse.takeWhile notDot).length - 1
        = k + 1 := ⟨_, (Nat.succ_pred_eq_of_pos h1).symm⟩
    rw [hk, List.take_succ_cons, List.all_cons] at hall
    have hdc : isDot c = true := ((Bool.and_eq_true _ _).mp hall).1
    exact hc (by simpa [isDot] using hdc)

/-- A separator-free name is its own basename. -/
theorem basenamePart_of_no_sep (n : List Char) (h : ('/' : Char) ∉ n) :
    basenamePart n = n := by
  have hw : n.reverse.takeWhile notSep = n.reverse :=
    List.takeWhile_eq_self_iff.mpr fun x hx => by
      have hxn : x ∈ n := List.mem_reverse.mp hx
      simp only [notSep, ne_eq, decide_not, Bool.not_eq_eq_eq_not, Bool.not_true,
        decide_eq_false_iff_not]
      exact fun he => h (he ▸ hxn)
  simp [basenamePart, hw]

/-- Membership bridge between the code's dotted excluded set and the
spec's undotted one. -/
theorem mem_ignored_iff (e : List Char) :
    ('.' :: e) ∈ ignoredExtensions ↔ e ∈ excludedExtNames := by
  simp [ignoredExtensions, excludedExtNames]

/-- Lowercasing commutes with the leading dot. -/
theorem lowerList_dot_cons (e : List Char) :
    lowerList ('.' :: e) = '.' :: lowerList e := by
  have hl : Char.toLower '.' = '.' := by decide
  simp [lowerList, hl]

/-- Pointwise agreement of the code's filter predicate with the spec's
characterization, for names without a path separator (root-listing
names never contain `/`). -/
theorem should_include_eq_spec (n : List Char) (hsep : ('/' : Char) ∉ n) :
    should_include_file n = ! specExcludedName n := by
  have hbn : basenamePart n = n := basenamePart_of_no_sep n hsep
  by_cases hh : n.head? = some '.'
  · simp [should_include_file, specExcludedName, hh]
  · have hhd : decide (n.head? = some '.') = false := decide_eq_false hh
    by_cases hdot : ('.' : Char) ∈ n
    · obtain ⟨c, t, rfl⟩ : ∃ c t, n = c :: t := by
        cases n with
        | nil => simp at hdot
        | cons c t => exact ⟨c, t, rfl⟩
      have hc : c ≠ '.' := fun he => hh (by simp [he])
      have hdt : ('.' : Char) ∈ t := by
        rcases List.mem_cons.mp hdot with h1 | h1
        · exact absurd h1.symm hc
        · exact h1
      have hext : splitextExt (c :: t) = '.' :: (t.reverse.takeWhile notDot).reverse := by
        unfold splitextExt
        rw [hbn]
        exact extPart_of_dot c t hc hdt
      have hspec : specExtension (c :: t) = (t.reverse.takeWhile notDot).reverse := by
        unfold specExtension
        rw [if_pos hdot, List.reverse_cons,
          takeWhile_notDot_append t.reverse c (List.mem_reverse.mpr hdt)]
      simp only [should_include_file, specExcludedName]
      rw [if_neg hh, hext, hspec, lowerList_dot_cons, hhd, Bool.false_or]
      rw [decide_eq_decide.mpr (mem_ignored_iff (lowerList (t.reverse.takeWhile notDot).reverse))]
    · have hext : splitextExt n = [] := by
        unfold splitextExt
        rw [hbn]
        exact extPart_of_no_dot n hdot
      have hspec : specExtension n = [] := by
        unfold specExtension
        rw [if_neg hdot]
      simp only [should_include_file, specExcludedName]
      rw [if_neg hh, hext, hspec, hhd, Bool.false_or]
      decide

/-!
## Claim theorems
-/

/-- C1: for every list of file names (root-listing names contain no
path separator), the filter excludes exactly the names starting with
`.` or whose lowercase extension lies in the excluded set png, jpg,
gif, zip, exe, pyc, lock; all other names are kept in their original
input order. -/
theorem c1_filter_matches_spec (names : List (List Char))
    (hsep : ∀ n ∈ names, ('/' : Char) ∉ n) :
    fileListOf ⟨200, names⟩ = names.filter (fun n => ! specExcludedName n) := by
  have h0 : fileListOf ⟨200, names⟩ = names.filter should_include_file := by
    simp [fileListOf]
  rw [h0]
  exact List.filter_congr fun n hn => should_include_eq_spec n (hsep n hn)

/-- Witness for C1 at a concrete file list. -/
theorem c1_filter_matches_spec_witness :
    (∀ n ∈ [String.toList "main.py", String.toList "logo.png", String.toList ".git",
        String.toList "Makefile", String.toList "FILE.PNG", String.toList "poetry.lock"],
      ('/' : Char) ∉ n) ∧
    fileListOf ⟨200, [String.toList "main.py", String.toList "logo.png",
        String.toList ".git", String.toList "Makefile", String.toList "FILE.PNG",
        String.toList "poetry.lock"]⟩ =
      [String.toList "main.py", String.toList "Makefile"] :=
  ⟨by decide,
   c1_filter_matches_spec
     [String.toList "main.py", String.toList "logo.png", String.toList ".git",
      String.toList "Makefile", String.toList "FILE.PNG", String.toList "poetry.lock"]
     (by decide)⟩

/-- C2: every exception path of the generation stage (transport
failure, missing content, unparsable reply) yields exactly the fixed
fallback object; `analyze_repo` is total, so no error propagates. -/
theorem c2_generation_errors_fall_back (readme : List Char)
    (files : List (List Char)) (o : CompletionOutcome) (h : genRaises o) :
    analyze_repo readme files o = fallbackJson := by
  rcases h with h | h | ⟨c, rfl, hc⟩
  · subst h
    rfl
  · subst h
    rfl
  · simp [analyze_repo, hc]

/-- Witness for C2: a transport failure and an unparsable reply both
produce the fallback object. -/
theorem c2_generation_errors_fall_back_witness :
    genRaises CompletionOutcome.exn ∧
    analyze_repo [] [] CompletionOutcome.exn = fallbackJson ∧
    genRaises (CompletionOutcome.reply (some (String.toList "not json"))) ∧
    analyze_repo [] [] (CompletionOutcome.reply (some (String.toList "not json"))) =
      fallbackJson :=
  ⟨Or.inl rfl,
   c2_generation_errors_fall_back [] [] CompletionOutcome.exn (Or.inl rfl),
   Or.inr (Or.inr ⟨String.toList "not json", rfl, rfl⟩),
   c2_generation_errors_fall_back [] []
     (CompletionOutcome.reply (some (String.toList "not json")))
     (Or.inr (Or.inr ⟨String.toList "not json", rfl, rfl⟩))⟩

/-- C3: for a well-formed URL, the readme response is dispatched on its
status: 200 yields the base64-then-UTF-8 decoded content field, 404
yields exactly "No README found.", and any other status raises the
`HTTPException` carrying the provider's status code. -/
theorem c3_readme_status_dispatch (url : List Char) (tree : TreeResp)
    (readme : ReadmeResp) (h2 : 2 ≤ (parseParts url).length) :
    (∀ s, readme.status = 200 → decodeContent readme.content = some s →
      get_repo_data url tree readme = Except.ok (s, fileListOf tree)) ∧
    (readme.status = 404 →
      get_repo_data url tree readme =
        Except.ok (String.toList "No README found.", fileListOf tree)) ∧
    (readme.status ≠ 200 → readme.status ≠ 404 →
      get_repo_data url tree readme =
        Except.error (FetchError.http readme.status (String.toList "GitHub API Error"))) := by
  have hlt : ¬ (parseParts url).length < 2 := by omega
  refine ⟨?_, ?_, ?_⟩
  · intro s h200 hdec
    simp [get_repo_data, hlt, readmeResult, h200, hdec, Except.map]
  · intro h404
    simp [get_repo_data, hlt, readmeResult, h404, Except.map]
  · intro hn200 hn404
    simp [get_repo_data, hlt, readmeResult, hn200, hn404, Except.map]

/-- Witness for C3 covering all three status branches at concrete
responses. -/
theorem c3_readme_status_dispatch_witness :
    2 ≤ (parseParts (String.toList "a/b")).length ∧
    decodeContent (String.toList "aGVsbG8=") = some (String.toList "hello") ∧
    get_repo_data (String.toList "a/b") ⟨200, []⟩ ⟨200, String.toList "aGVsbG8="⟩ =
      Except.ok (String.toList "hello", []) ∧
    get_repo_data (String.toList "a/b") ⟨200, []⟩ ⟨404, []⟩ =
      Except.ok (String.toList "No README found.", []) ∧
    get_repo_data (String.toList "a/b") ⟨200, []⟩ ⟨503, []⟩ =
      Except.error (FetchError.http 503 (String.toList "GitHub API Error")) :=
  ⟨by decide, rfl,
   (c3_readme_status_dispatch (String.toList "a/b") ⟨200, []⟩
       ⟨200, String.toList "aGVsbG8="⟩ (by decide)).1 (String.toList "hello") rfl rfl,
   (c3_readme_status_dispatch (String.toList "a/b") ⟨200, []⟩ ⟨404, []⟩
       (by decide)).2.1 rfl,
   (c3_readme_status_dispatch (String.toList "a/b") ⟨200, []⟩ ⟨503, []⟩
       (by decide)).2.2 (by decide) (by decide)⟩

/-- C4 counterexample: the URL "/widgets" has exactly one non-empty
path segment after stripping and splitting, yet the request is not
rejected with the 400 input error — it proceeds to the network stage
and succeeds. -/
theorem c4_counterexample :
    ((parseParts (String.toList "/widgets")).filter (fun p => ! p.isEmpty)).length = 1 ∧
    get_repo_data (String.toList "/widgets") ⟨404, []⟩ ⟨404, []⟩ =
      Except.ok (String.toList "No README found.", []) ∧
    get_repo_data (String.toList "/widgets") ⟨404, []⟩ ⟨404, []⟩ ≠
      Except.error (FetchError.http 400 (String.toList "Invalid GitHub URL")) := by
  refine ⟨by decide, by decide, by decide⟩

/-- C4 amended: the request is rejected with the 400 input error, for
every possible pair of provider responses (hence before any network
call), exactly when splitting the trailing-slash-stripped URL on `/`
yields fewer than two segments, counting empty segments. -/
theorem c4_short_url_rejected (url : List Char) (tree : TreeResp)
    (readme : ReadmeResp) (h : (parseParts url).length < 2) :
    get_repo_data url tree readme =
      Except.error (FetchError.http 400 (String.toList "Invalid GitHub URL")) := by
  simp [get_repo_data, h]

/-- Witness for the amended C4 at the URL "widgets". -/
theorem c4_short_url_rejected_witness :
    (parseParts (String.toList "widgets")).length < 2 ∧
    get_repo_data (String.toList "widgets") ⟨200, [String.toList "x.py"]⟩ ⟨200, []⟩ =
      Except.error (FetchError.http 400 (String.toList "Invalid GitHub URL")) :=
  ⟨by decide,
   c4_short_url_rejected (String.toList "widgets") ⟨200, [String.toList "x.py"]⟩
     ⟨200, []⟩ (by decide)⟩

/-- C5: the headers dict always contains the Authorization key; with no
token configured its value is Python `None` (the key is not omitted),
and with a token it is the bearer value. -/
theorem c5_authorization_key_always_present :
    (headersList none =
      [(String.toList "Accept", some (String.toList "application/vnd.github.v3+json")),
       (String.toList "Authorization", none)]) ∧
    ∀ t, headersList (some t) =
      [(String.toList "Accept", some (String.toList "application/vnd.github.v3+json")),
       (String.toList "Authorization", some (String.toList "Bearer " ++ t))] :=
  ⟨rfl, fun _ => rfl⟩

/-- C6 counterexample: a model reply that is valid JSON of the wrong
shape ("null") is returned as-is by `analyze_repo`; the result is
neither a three-field object nor the fallback object. -/
theorem c6_counterexample :
    analyze_repo [] [] (CompletionOutcome.reply (some (String.toList "null"))) =
      JsonVal.null ∧
    isAnalysisShape JsonVal.null = false ∧
    isAnalysisShape fallbackJson = true :=
  ⟨rfl, rfl, rfl⟩

/-- C6 amended: when the model delivers a reply string, `analyze_repo`
returns the parsed JSON value whenever the fence-stripped reply parses,
regardless of its shape, and the fallback object only when parsing
fails. -/
theorem c6_parsed_reply_returned_as_is (readme : List Char)
    (files : List (List Char)) (content : List Char) :
    analyze_repo readme files (CompletionOutcome.reply (some content)) =
      (match jsonLoads (cleanContent content) with
       | some v => v
       | none => fallbackJson) := rfl

/-- C7: for a well-formed URL, a non-200 listing response yields the
empty file list without raising: the result is exactly the readme
stage's outcome paired with the empty list, so the readme fetch still
proceeds. -/
theorem c7_listing_failure_gives_empty_list (url : List Char) (tree : TreeResp)
    (readme : ReadmeResp) (h2 : 2 ≤ (parseParts url).length)
    (hst : tree.status ≠ 200) :
    get_repo_data url tree readme =
      (readmeResult readme).map (fun s => (s, ([] : List (List Char)))) := by
  have hlt : ¬ (parseParts url).length < 2 := by omega
  simp [get_repo_data, hlt, fileListOf, hst]

/-- Witness for C7 at a concrete 500 listing response. -/
theorem c7_listing_failure_gives_empty_list_witness :
    2 ≤ (parseParts (String.toList "a/b")).length ∧
    (500 : Nat) ≠ 200 ∧
    get_repo_data (String.toList "a/b") ⟨500, [String.toList "main.py"]⟩ ⟨404, []⟩ =
      (readmeResult ⟨404, []⟩).map (fun s => (s, ([] : List (List Char)))) :=
  ⟨by decide, by decide,
   c7_listing_failure_gives_empty_list (String.toList "a/b")
     ⟨500, [String.toList "main.py"]⟩ ⟨404, []⟩ (by decide) (by decide)⟩

/-- C8: the readme text embedded in the generation prompt is exactly
the first 5000 characters of `readme_text`; a readme of length at most
5000 is embedded unchanged. -/
theorem c8_prompt_truncates_readme (readme : List Char) (files : List (List Char)) :
    user_prompt readme files = userPromptHeader files ++ readme.take 5000 ∧
    (readme.length ≤ 5000 →
      user_prompt readme files = userPromptHeader files ++ readme) := by
  constructor
  · simp [user_prompt, userPromptHeader, truncated_readme, List.append_assoc]
  · intro h
    simp [user_prompt, userPromptHeader, truncated_readme, List.append_assoc,
      List.take_of_length_le h]

/-- Witness for C8 at a short readme. -/
theorem c8_prompt_truncates_readme_witness :
    (String.toList "R").length ≤ 5000 ∧
    user_prompt (String.toList "R") [String.toList "a.py"] =
      userPromptHeader [String.toList "a.py"] ++ String.toList "R" :=
  ⟨by decide, (c8_prompt_truncates_readme (String.toList "R") [String.toList "a.py"]).2
    (by decide)⟩

/-- C9: the reference URL resolves to the pair (acme, widgets), and in
general the owner and repository name are the last two segments of the
URL split on `/` after stripping trailing slashes. -/
theorem c9_owner_repo_last_two_segments :
    ownerRepo (String.toList "https://github.com/acme/widgets") =
      some (String.toList "acme", String.toList "widgets") ∧
    ∀ url, 2 ≤ (parseParts url).length →
      ownerRepo url = some ((parseParts url).getD ((parseParts url).length - 2) [],
        (parseParts url).getD ((parseParts url).length - 1) []) := by
  constructor
  · decide
  · intro url h
    have hlt : ¬ (parseParts url).length < 2 := by omega
    simp [ownerRepo, hlt]

/-- Witness for C9's general clause at a concrete URL. -/
theorem c9_owner_repo_last_two_segments_witness :
    2 ≤ (parseParts (String.toList "x/y")).length ∧
    ownerRepo (String.toList "x/y") = some (String.toList "x", String.toList "y") :=
  ⟨by decide,
   c9_owner_repo_last_two_segments.2 (String.toList "x/y") (by decide)⟩

/-- C10: a filename that does not start with a dot and contains no dot
at all has the empty extension, and the filter includes it. -/
theorem c10_extensionless_names_included (n : List Char)
    (h1 : n.head? ≠ some '.') (h2 : ('.' : Char) ∉ n) :
    splitextExt n = [] ∧ should_include_file n = true := by
  have hb : ('.' : Char) ∉ basenamePart n := by
    intro hmem
    apply h2
    have hmem2 : ('.' : Char) ∈ n.reverse.takeWhile notSep := by
      simpa [basenamePart] using hmem
    exact List.mem_reverse.mp (( List.takeWhile_prefix notSep).subset hmem2)
  have hext : splitextExt n = [] := by
    unfold splitextExt
    exact extPart_of_no_dot (basenamePart n) hb
  refine ⟨hext, ?_⟩
  rw [should_include_file, if_neg h1, hext]
  decide

/-- Witness for C10 at the name "Makefile". -/
theorem c10_extensionless_names_included_witness :
    (String.toList "Makefile").head? ≠ some '.' ∧
    ('.' : Char) ∉ String.toList "Makefile" ∧
    splitextExt (String.toList "Makefile") = [] ∧
    should_include_file (String.toList "Makefile") = true := by
  refine ⟨by decide, by decide, ?_⟩
  exact c10_extensionless_names_included (String.toList "Makefile") (by decide) (by decide)
